import Mathlib

/-!
Shallow embedding of the multi-source market-data retrieval and caching layer of
`market_data_integration.js` (class `MarketDataManager`), together with theorems
settling the specification claims about it.

Modelling conventions:
* JS numbers are modelled as `ℚ` (prices, percentages) and `ℤ` (epoch-millisecond
  timestamps, volumes produced by `Math.floor`/`parseInt`).
* `Math.random()` results are oracle inputs: each random draw the code makes is a
  `ℚ` field of an explicit random-input structure; validity (`0 ≤ r < 1`) is an
  explicit hypothesis where a claim needs it.
* Network I/O is an oracle: each adapter receives the (already JSON-parsed) provider
  response as an `Option` of a response-shape structure; `none` covers both a missing
  expected field and a fetch/parse error caught inside the adapter (both make the
  adapter return `null` in the source).
* `Date.now()` is an explicit `now : ℤ` parameter.
* The in-memory `Map` cache is an association list; `Map.set` prepends and `Map.get`
  takes the first hit, which models overwrite-on-set.
* Each adapter returns its result paired with a `Bool` recording whether a network
  request was issued, and the orchestrators record which adapters were invoked, so
  that the call-count claims are statable.
-/

namespace LiveTrader

/-- Normalized quote record produced by every quote path (§ adapters and
`getFallbackQuote`).  The Finnhub adapter sets no `volume` field, hence `Option`. -/
structure Quote where
  symbol : String
  price : ℚ
  change : ℚ
  changePercent : ℚ
  volume : Option ℚ
  high : ℚ
  low : ℚ
  open_ : ℚ
  previousClose : ℚ
  timestamp : ℤ
  source : String
deriving DecidableEq, Repr

/-- One point of a historical series. -/
structure HistoricalPoint where
  timestamp : ℤ
  open_ : ℚ
  high : ℚ
  low : ℚ
  close : ℚ
  volume : ℤ
deriving DecidableEq, Repr

/-- One point of an indicator series: the source builds `{timestamp}` and then adds
`value` for RSI/SMA/EMA or `macd`/`signal`/`histogram` for MACD. -/
structure IndicatorPoint where
  timestamp : ℤ
  value : Option ℚ := none
  macd : Option ℚ := none
  signal : Option ℚ := none
  histogram : Option ℚ := none
deriving DecidableEq, Repr

/-- The five `Math.random()` draws `getFallbackQuote` makes, in call order:
`randomChange`, `volume`, `high`, `low`, `open`. -/
structure QuoteRand where
  r0 : ℚ
  r1 : ℚ
  r2 : ℚ
  r3 : ℚ
  r4 : ℚ
deriving DecidableEq, Repr

/-- A value `Math.random()` can actually produce. -/
def validRand (r : ℚ) : Prop := 0 ≤ r ∧ r < 1

/-- All five draws of a `QuoteRand` are valid `Math.random()` outputs. -/
def QuoteRand.valid (rnd : QuoteRand) : Prop :=
  validRand rnd.r0 ∧ validRand rnd.r1 ∧ validRand rnd.r2 ∧ validRand rnd.r3 ∧
    validRand rnd.r4

/-- The five `Math.random()` draws one loop iteration of `getFallbackHistoricalData`
makes, in call order: price, open, high, low, volume. -/
structure PointRand where
  rPrice : ℚ
  rOpen : ℚ
  rHigh : ℚ
  rLow : ℚ
  rVol : ℚ
deriving DecidableEq, Repr

/-- Validity of one iteration's draws. -/
def PointRand.valid (r : PointRand) : Prop :=
  validRand r.rPrice ∧ validRand r.rOpen ∧ validRand r.rHigh ∧ validRand r.rLow ∧
    validRand r.rVol

/-- The up-to-three `Math.random()` draws one loop iteration of
`getFallbackIndicator` makes. -/
structure IndRand where
  a : ℚ
  b : ℚ
  c : ℚ
deriving DecidableEq, Repr

/-- Validity of one iteration's draws. -/
def IndRand.valid (r : IndRand) : Prop := validRand r.a ∧ validRand r.b ∧ validRand r.c

/-- `this.cacheTimeout = 60000` (1 minute default quote cache). -/
def cacheTimeout : ℤ := 60000

/-- `this.minApiInterval = 1000` (1 second between API calls). -/
def minApiInterval : ℤ := 1000

/-- The in-memory cache `this.cache : Map`. -/
def Cache (α : Type) : Type := List (String × α × ℤ)

/-- `Map.get`: first entry for the key (sets prepend, so first hit is newest). -/
def cacheGet {α : Type} : Cache α → String → Option (α × ℤ)
  | [], _ => none
  | (k, v, t) :: rest, key => if k = key then some (v, t) else cacheGet rest key

/-- `Map.set(key, {data, timestamp})`. -/
def cacheSet {α : Type} (cache : Cache α) (key : String) (v : α) (t : ℤ) : Cache α :=
  (key, v, t) :: cache

/-- `isCacheValid(key, timeout = this.cacheTimeout)`:
`cached && (Date.now() - cached.timestamp) < timeout`. -/
def isCacheValid {α : Type} (cache : Cache α) (now : ℤ) (key : String)
    (timeout : ℤ) : Bool :=
  match cacheGet cache key with
  | none => false
  | some (_, ts) => decide (now - ts < timeout)

/-- The `baseValues` lookup table of `getFallbackQuote`, with the `|| 100` default. -/
def baseValues (symbol : String) : ℚ :=
  if symbol = "IXIC" then 15000
  else if symbol = "SPX" then 4500
  else if symbol = "DJI" then 35000
  else if symbol = "AAPL" then 175
  else if symbol = "GOOGL" then 140
  else if symbol = "MSFT" then 350
  else if symbol = "TSLA" then 250
  else 100

/-- `getFallbackQuote(symbol)`: synthetic demo quote. -/
def getFallbackQuote (symbol : String) (rnd : QuoteRand) (now : ℤ) : Quote :=
  let basePrice := baseValues symbol
  let randomChange := (rnd.r0 - 1/2) * 10
  let price := basePrice + randomChange
  { symbol := symbol
    price := price
    change := randomChange
    changePercent := (randomChange / basePrice) * 100
    volume := some ((⌊rnd.r1 * 10000000⌋ : ℤ) : ℚ)
    high := price + rnd.r2 * 5
    low := price - rnd.r3 * 5
    open_ := price + (rnd.r4 - 1/2) * 3
    previousClose := price - randomChange
    timestamp := now
    source := "Demo Data" }

/-- The `Global Quote` object of an Alpha Vantage response, with its string fields
already passed through `parseFloat`/`parseInt` and the trading-day date through
`new Date(...).getTime()`. -/
structure AVGlobalQuote where
  price : ℚ
  change : ℚ
  changePercent : ℚ
  volume : ℤ
  high : ℚ
  low : ℚ
  open_ : ℚ
  previousClose : ℚ
  latestTradingDay : ℤ
deriving DecidableEq, Repr

/-- A Finnhub quote response body. -/
structure FinnhubResp where
  c : ℚ
  d : ℚ
  dp : ℚ
  h : ℚ
  l : ℚ
  o : ℚ
  pc : ℚ
  t : ℤ
deriving DecidableEq, Repr

/-- `data.results[0]` of a Polygon previous-day aggregate response. -/
structure PolygonResult where
  c : ℚ
  o : ℚ
  h : ℚ
  l : ℚ
  v : ℚ
  t : ℤ
deriving DecidableEq, Repr

/-- The normalized quote the Alpha Vantage adapter builds from a `Global Quote`. -/
def avQuoteOf (symbol : String) (q : AVGlobalQuote) : Quote :=
  { symbol := symbol
    price := q.price
    change := q.change
    changePercent := q.changePercent
    volume := some (q.volume : ℚ)
    high := q.high
    low := q.low
    open_ := q.open_
    previousClose := q.previousClose
    timestamp := q.latestTradingDay
    source := "Alpha Vantage" }

/-- `getAlphaVantageQuote(symbol)`.  With the placeholder key it substitutes a
synthetic quote; otherwise it issues a network request and maps the `Global Quote`
fields, returning `null` when the field is absent or the fetch threw.  The `Bool`
records whether a network request was issued. -/
def getAlphaVantageQuote (key symbol : String) (resp : Option AVGlobalQuote)
    (rnd : QuoteRand) (now : ℤ) : Option Quote × Bool :=
  if key = "demo" then
    (some (getFallbackQuote symbol rnd now), false)
  else
    match resp with
    | none => (none, true)
    | some q => (some (avQuoteOf symbol q), true)

/-- The normalized quote the Finnhub adapter builds from a response. -/
def fhQuoteOf (symbol : String) (r : FinnhubResp) : Quote :=
  { symbol := symbol
    price := r.c
    change := r.d
    changePercent := r.dp
    volume := none
    high := r.h
    low := r.l
    open_ := r.o
    previousClose := r.pc
    timestamp := r.t * 1000
    source := "Finnhub" }

/-- `getFinnhubQuote(symbol)`.  With the placeholder key it returns `null` without
a network call; on a response it checks JS truthiness of `data.c` (zero is falsy). -/
def getFinnhubQuote (key symbol : String) (resp : Option FinnhubResp) :
    Option Quote × Bool :=
  if key = "demo" then
    (none, false)
  else
    match resp with
    | none => (none, true)
    | some r =>
        if r.c = 0 then (none, true)
        else (some (fhQuoteOf symbol r), true)

/-- The normalized quote the Polygon adapter builds from the previous-day
aggregate: change data is derived from close and open, while `previousClose` is
set to the close itself. -/
def polyQuoteOf (symbol : String) (r : PolygonResult) : Quote :=
  { symbol := symbol
    price := r.c
    change := r.c - r.o
    changePercent := ((r.c - r.o) / r.o) * 100
    volume := some r.v
    high := r.h
    low := r.l
    open_ := r.o
    previousClose := r.c
    timestamp := r.t
    source := "Polygon" }

/-- `getPolygonQuote(symbol)`.  With the placeholder key it returns `null` without
a network call; otherwise it derives change data from the previous-day aggregate. -/
def getPolygonQuote (key symbol : String) (resp : Option PolygonResult) :
    Option Quote × Bool :=
  if key = "demo" then
    (none, false)
  else
    match resp with
    | none => (none, true)
    | some r => (some (polyQuoteOf symbol r), true)

/-- Oracle inputs of one `getRealTimeQuote` execution. -/
structure QuoteEnv where
  alphaVantageKey : String
  finnhubKey : String
  polygonKey : String
  avResp : Option AVGlobalQuote
  fhResp : Option FinnhubResp
  polyResp : Option PolygonResult
  rnd : QuoteRand
  now : ℤ

/-- Result of `getRealTimeQuote`: the returned value, the cache afterwards, and
which provider adapters were invoked. -/
structure QuoteResult where
  quote : Option Quote
  cache : Cache Quote
  avInvoked : Bool
  fhInvoked : Bool
  polyInvoked : Bool

/-- `getRealTimeQuote(symbol)`: cache check, then Alpha Vantage → Finnhub → Polygon,
caching a truthy result.  The adapters catch their own fetch errors and return
`null`, so the surrounding `catch` (which would return `getFallbackQuote`) is not
reachable through the modelled paths and the chain result is returned as is. -/
def getRealTimeQuote (cache : Cache Quote) (symbol : String) (env : QuoteEnv) :
    QuoteResult :=
  let cacheKey := "quote_" ++ symbol
  if isCacheValid cache env.now cacheKey cacheTimeout then
    { quote := (cacheGet cache cacheKey).map (fun e => e.1)
      cache := cache
      avInvoked := false, fhInvoked := false, polyInvoked := false }
  else
    match (getAlphaVantageQuote env.alphaVantageKey symbol env.avResp env.rnd env.now).1 with
    | some q =>
        { quote := some q, cache := cacheSet cache cacheKey q env.now
          avInvoked := true, fhInvoked := false, polyInvoked := false }
    | none =>
        match (getFinnhubQuote env.finnhubKey symbol env.fhResp).1 with
        | some q =>
            { quote := some q, cache := cacheSet cache cacheKey q env.now
              avInvoked := true, fhInvoked := true, polyInvoked := false }
        | none =>
            match (getPolygonQuote env.polygonKey symbol env.polyResp).1 with
            | some q =>
                { quote := some q, cache := cacheSet cache cacheKey q env.now
                  avInvoked := true, fhInvoked := true, polyInvoked := true }
            | none =>
                { quote := none, cache := cache
                  avInvoked := true, fhInvoked := true, polyInvoked := true }

/-- `getFallbackHistoricalData(symbol)`: one loop iteration for loop counter `i`
(running from 100 down to 0), given the synthetic base price drawn beforehand. -/
def fallbackHistoricalPoint (basePrice : ℚ) (now : ℤ) (i : ℕ) (r : PointRand) :
    HistoricalPoint :=
  let timestamp := now - (i : ℤ) * (5 * 60 * 1000)
  let price := basePrice + (r.rPrice - 1/2) * 20
  { timestamp := timestamp
    open_ := price + (r.rOpen - 1/2) * 2
    high := price + r.rHigh * 3
    low := price - r.rLow * 3
    close := price
    volume := ⌊r.rVol * 1000000⌋ }

/-- `getFallbackHistoricalData(symbol)`: 101 synthetic five-minute bars, pushed for
`i = 100` down to `i = 0`, around the price of a fresh synthetic quote.  `rs i` holds
the draws of the iteration with loop counter `i`. -/
def getFallbackHistoricalData (symbol : String) (qr : QuoteRand) (rs : ℕ → PointRand)
    (now : ℤ) : List HistoricalPoint :=
  let basePrice := (getFallbackQuote symbol qr now).price
  (List.range 101).map (fun j => fallbackHistoricalPoint basePrice now (100 - j) (rs (100 - j)))

/-- One entry of the Alpha Vantage intraday time series, with its string values
already passed through `parseFloat`/`parseInt` and its key through
`new Date(...).getTime()`. -/
structure RawBar where
  timestamp : ℤ
  open_ : ℚ
  high : ℚ
  low : ℚ
  close : ℚ
  volume : ℤ
deriving DecidableEq, Repr

/-- `getAlphaVantageHistorical(symbol, interval)`.  With the placeholder key it
substitutes synthetic data without a network call; otherwise it maps the time-series
entries and sorts ascending by timestamp (`(a, b) => a.timestamp - b.timestamp`). -/
def getAlphaVantageHistorical (key symbol interval : String)
    (resp : Option (List RawBar)) (qr : QuoteRand) (rs : ℕ → PointRand) (now : ℤ) :
    Option (List HistoricalPoint) × Bool :=
  if key = "demo" then
    (some (getFallbackHistoricalData symbol qr rs now), false)
  else
    match resp with
    | none => (none, true)
    | some bars =>
        (some ((bars.map (fun b =>
            ({ timestamp := b.timestamp, open_ := b.open_, high := b.high,
               low := b.low, close := b.close, volume := b.volume } : HistoricalPoint))).insertionSort
          (fun a b => a.timestamp ≤ b.timestamp)), true)

/-- Oracle inputs of one `getHistoricalData` execution. -/
structure HistEnv where
  alphaVantageKey : String
  avResp : Option (List RawBar)
  qr : QuoteRand
  rs : ℕ → PointRand
  now : ℤ

/-- Result of `getHistoricalData`: the returned value, the cache afterwards, whether
the Alpha Vantage adapter was invoked, and whether the `catch` branch ran. -/
structure HistResult where
  data : Option (List HistoricalPoint)
  cache : Cache (List HistoricalPoint)
  avInvoked : Bool
  threw : Bool

/-- `getHistoricalData(symbol, period, interval)`: 5-minute cache, then Alpha
Vantage.  When Alpha Vantage yields no data the source invokes
`this.getFinnhubHistorical(symbol, period)`, a method that is not defined anywhere
in the repository; the invocation raises a `TypeError` which the surrounding
`catch` turns into `getFallbackHistoricalData(symbol)`, returned without caching. -/
def getHistoricalData (cache : Cache (List HistoricalPoint))
    (symbol period interval : String) (env : HistEnv) : HistResult :=
  let cacheKey := "historical_" ++ symbol ++ "_" ++ period ++ "_" ++ interval
  if isCacheValid cache env.now cacheKey 300000 then
    { data := (cacheGet cache cacheKey).map (fun e => e.1)
      cache := cache, avInvoked := false, threw := false }
  else
    match (getAlphaVantageHistorical env.alphaVantageKey symbol interval env.avResp
        env.qr env.rs env.now).1 with
    | some d =>
        { data := some d, cache := cacheSet cache cacheKey d env.now
          avInvoked := true, threw := false }
    | none =>
        { data := some (getFallbackHistoricalData symbol env.qr env.rs env.now)
          cache := cache, avInvoked := true, threw := true }

/-- `getFallbackIndicator(symbol, indicator)`: 51 synthetic daily points pushed for
`i = 50` down to `i = 0` for RSI and MACD, nothing for any other indicator.
`rs i` holds the draws of the iteration with loop counter `i`. -/
def getFallbackIndicator (symbol indicator : String) (rs : ℕ → IndRand) (now : ℤ) :
    List IndicatorPoint :=
  if indicator = "RSI" then
    (List.range 51).map (fun j =>
      { timestamp := now - ((50 - j : ℕ) : ℤ) * (24 * 60 * 60 * 1000)
        value := some (30 + (rs (50 - j)).a * 40) })
  else if indicator = "MACD" then
    (List.range 51).map (fun j =>
      { timestamp := now - ((50 - j : ℕ) : ℤ) * (24 * 60 * 60 * 1000)
        macd := some (((rs (50 - j)).a - 1/2) * 10)
        signal := some (((rs (50 - j)).b - 1/2) * 8)
        histogram := some (((rs (50 - j)).c - 1/2) * 5) })
  else []

/-- `parseIndicatorData`: build one entry from a time-series key/value pair.  The
raw values object is modelled as a string-indexed map, since the source reads a
field chosen by the `type` string. -/
def parseIndicatorEntry (type : String) (timestamp : ℤ) (vals : String → ℚ) :
    IndicatorPoint :=
  if type = "RSI" then
    { timestamp := timestamp, value := some (vals "RSI") }
  else if type = "MACD" then
    { timestamp := timestamp
      macd := some (vals "MACD")
      signal := some (vals "MACD_Signal")
      histogram := some (vals "MACD_Hist") }
  else if type = "SMA" ∨ type = "EMA" then
    { timestamp := timestamp, value := some (vals type) }
  else
    { timestamp := timestamp }

/-- `parseIndicatorData(data, type)`: map the entries, sort by
`(a, b) => b.timestamp - a.timestamp` (descending) and keep the latest 100. -/
def parseIndicatorData (data : List (ℤ × (String → ℚ))) (type : String) :
    List IndicatorPoint :=
  ((data.map (fun p => parseIndicatorEntry type p.1 p.2)).insertionSort
    (fun a b => b.timestamp ≤ a.timestamp)).take 100

/-- The `functionMap` of `getAlphaVantageIndicator`. -/
def functionMap (indicator : String) : Option String :=
  if indicator = "RSI" then some "RSI"
  else if indicator = "MACD" then some "MACD"
  else if indicator = "SMA" then some "SMA"
  else if indicator = "EMA" then some "EMA"
  else if indicator = "BBANDS" then some "BBANDS"
  else none

/-- `getAlphaVantageIndicator(symbol, indicator)`.  With the placeholder key it
substitutes synthetic data without a network call; an indicator outside the
`functionMap` returns `null` before any fetch; otherwise the response is parsed for
RSI, MACD, SMA and EMA, and anything else (BBANDS) falls through to `null`. -/
def getAlphaVantageIndicator (key symbol indicator : String)
    (resp : Option (List (ℤ × (String → ℚ)))) (rs : ℕ → IndRand) (now : ℤ) :
    Option (List IndicatorPoint) × Bool :=
  if key = "demo" then
    (some (getFallbackIndicator symbol indicator rs now), false)
  else
    match functionMap indicator with
    | none => (none, false)
    | some func =>
        match resp with
        | none => (none, true)
        | some series =>
            if indicator = "RSI" then (some (parseIndicatorData series "RSI"), true)
            else if indicator = "MACD" then (some (parseIndicatorData series "MACD"), true)
            else if indicator = "SMA" ∨ indicator = "EMA" then
              (some (parseIndicatorData series func), true)
            else (none, true)

/-- `results[indicator] = data`: JS object assignment on a string key (replaces an
existing entry in place, otherwise appends). -/
def upsert (acc : List (String × List IndicatorPoint)) (k : String)
    (v : List IndicatorPoint) : List (String × List IndicatorPoint) :=
  match acc with
  | [] => [(k, v)]
  | (k0, v0) :: rest => if k0 = k then (k, v) :: rest else (k0, v0) :: upsert rest k v

/-- The `for (const indicator of indicators)` loop of `getTechnicalIndicators`:
every truthy adapter result (any array, even empty) is recorded. -/
def collectIndicators (key symbol : String)
    (resp : String → Option (List (ℤ × (String → ℚ)))) (rsFor : String → ℕ → IndRand)
    (now : ℤ) : List String → List (String × List IndicatorPoint) →
    List (String × List IndicatorPoint)
  | [], acc => acc
  | ind :: rest, acc =>
      match (getAlphaVantageIndicator key symbol ind (resp ind) (rsFor ind) now).1 with
      | some d => collectIndicators key symbol resp rsFor now rest (upsert acc ind d)
      | none => collectIndicators key symbol resp rsFor now rest acc

/-- Oracle inputs of one `getTechnicalIndicators` execution. -/
structure IndEnv where
  alphaVantageKey : String
  resp : String → Option (List (ℤ × (String → ℚ)))
  rsFor : String → ℕ → IndRand
  now : ℤ

/-- Result of `getTechnicalIndicators`: the returned per-indicator map, the cache
afterwards, and the indicators for which the adapter was invoked. -/
structure IndicatorsResult where
  results : List (String × List IndicatorPoint)
  cache : Cache (List (String × List IndicatorPoint))
  invoked : List String

/-- `getTechnicalIndicators(symbol, indicators)`: 5-minute cache, then one Alpha
Vantage indicator fetch per requested kind, caching the map when non-empty. -/
def getTechnicalIndicators (cache : Cache (List (String × List IndicatorPoint)))
    (symbol : String) (indicators : List String) (env : IndEnv) : IndicatorsResult :=
  let cacheKey := "indicators_" ++ symbol ++ "_" ++ String.intercalate "_" indicators
  if isCacheValid cache env.now cacheKey 300000 then
    { results := ((cacheGet cache cacheKey).map (fun e => e.1)).getD []
      cache := cache, invoked := [] }
  else
    let results := collectIndicators env.alphaVantageKey symbol env.resp env.rsFor
      env.now indicators []
    { results := results
      cache := if results.length > 0 then cacheSet cache cacheKey results env.now else cache
      invoked := indicators }

/-- `isMarketOpen(date)`, from the point where the New York wall-clock day-of-week,
hour and minute have been extracted:
`day >= 1 && day <= 5 && time >= 930 && time < 1600` with `time = hour * 100 + minute`. -/
def isMarketOpen (day hour minute : ℕ) : Bool :=
  let time := hour * 100 + minute
  decide (1 ≤ day) && decide (day ≤ 5) && decide (930 ≤ time) && decide (time < 1600)

/-- `rateLimitDelay()`: given the recorded `this.lastApiCall` and the current
`Date.now()`, returns the time at which the function resumes and records it as the
new `this.lastApiCall` (when no sleep is needed it records the current time). -/
def rateLimitDelay (lastApiCall now : ℤ) : ℤ :=
  if now - lastApiCall < minApiInterval then
    now + (minApiInterval - (now - lastApiCall))
  else
    now

/-! ## Helper lemmas -/

theorem cacheGet_cacheSet {α : Type} (c : Cache α) (k : String) (v : α) (t : ℤ) :
    cacheGet (cacheSet c k v t) k = some (v, t) := by
  simp [cacheGet, cacheSet]

theorem isCacheValid_cacheSet {α : Type} (c : Cache α) (k : String) (v : α)
    (t now tmo : ℤ) :
    isCacheValid (cacheSet c k v t) now k tmo = decide (now - t < tmo) := by
  unfold isCacheValid
  rw [cacheGet_cacheSet]

theorem rtq_hit (cache : Cache Quote) (symbol : String) (env : QuoteEnv)
    (h : isCacheValid cache env.now ("quote_" ++ symbol) cacheTimeout = true) :
    getRealTimeQuote cache symbol env =
      { quote := (cacheGet cache ("quote_" ++ symbol)).map (fun e => e.1)
        cache := cache, avInvoked := false, fhInvoked := false, polyInvoked := false } := by
  unfold getRealTimeQuote
  simp [h]

theorem rtq_av_some (cache : Cache Quote) (symbol : String) (env : QuoteEnv) (q : Quote)
    (hmiss : isCacheValid cache env.now ("quote_" ++ symbol) cacheTimeout = false)
    (hav : (getAlphaVantageQuote env.alphaVantageKey symbol env.avResp env.rnd env.now).1
      = some q) :
    getRealTimeQuote cache symbol env =
      { quote := some q, cache := cacheSet cache ("quote_" ++ symbol) q env.now
        avInvoked := true, fhInvoked := false, polyInvoked := false } := by
  unfold getRealTimeQuote
  simp [hmiss, hav]

theorem rtq_fh_some (cache : Cache Quote) (symbol : String) (env : QuoteEnv) (q : Quote)
    (hmiss : isCacheValid cache env.now ("quote_" ++ symbol) cacheTimeout = false)
    (hav : (getAlphaVantageQuote env.alphaVantageKey symbol env.avResp env.rnd env.now).1
      = none)
    (hfh : (getFinnhubQuote env.finnhubKey symbol env.fhResp).1 = some q) :
    getRealTimeQuote cache symbol env =
      { quote := some q, cache := cacheSet cache ("quote_" ++ symbol) q env.now
        avInvoked := true, fhInvoked := true, polyInvoked := false } := by
  unfold getRealTimeQuote
  simp [hmiss, hav, hfh]

theorem rtq_poly_some (cache : Cache Quote) (symbol : String) (env : QuoteEnv) (q : Quote)
    (hmiss : isCacheValid cache env.now ("quote_" ++ symbol) cacheTimeout = false)
    (hav : (getAlphaVantageQuote env.alphaVantageKey symbol env.avResp env.rnd env.now).1
      = none)
    (hfh : (getFinnhubQuote env.finnhubKey symbol env.fhResp).1 = none)
    (hpoly : (getPolygonQuote env.polygonKey symbol env.polyResp).1 = some q) :
    getRealTimeQuote cache symbol env =
      { quote := some q, cache := cacheSet cache ("quote_" ++ symbol) q env.now
        avInvoked := true, fhInvoked := true, polyInvoked := true } := by
  unfold getRealTimeQuote
  simp [hmiss, hav, hfh, hpoly]

theorem rtq_all_none (cache : Cache Quote) (symbol : String) (env : QuoteEnv)
    (hmiss : isCacheValid cache env.now ("quote_" ++ symbol) cacheTimeout = false)
    (hav : (getAlphaVantageQuote env.alphaVantageKey symbol env.avResp env.rnd env.now).1
      = none)
    (hfh : (getFinnhubQuote env.finnhubKey symbol env.fhResp).1 = none)
    (hpoly : (getPolygonQuote env.polygonKey symbol env.polyResp).1 = none) :
    getRealTimeQuote cache symbol env =
      { quote := none, cache := cache
        avInvoked := true, fhInvoked := true, polyInvoked := true } := by
  unfold getRealTimeQuote
  simp [hmiss, hav, hfh, hpoly]

theorem isCacheValid_isSome {α : Type} {c : Cache α} {now : ℤ} {key : String} {tmo : ℤ}
    (h : isCacheValid c now key tmo = true) : (cacheGet c key).isSome = true := by
  unfold isCacheValid at h
  split at h
  · exact absurd h (by simp)
  · simp_all

theorem hist_hit (cache : Cache (List HistoricalPoint)) (symbol period interval : String)
    (env : HistEnv)
    (h : isCacheValid cache env.now
      ("historical_" ++ symbol ++ "_" ++ period ++ "_" ++ interval) 300000 = true) :
    getHistoricalData cache symbol period interval env =
      { data := (cacheGet cache ("historical_" ++ symbol ++ "_" ++ period ++ "_" ++ interval)).map
          (fun e => e.1)
        cache := cache, avInvoked := false, threw := false } := by
  unfold getHistoricalData
  simp [h]

theorem hist_av_some (cache : Cache (List HistoricalPoint))
    (symbol period interval : String) (env : HistEnv) (d : List HistoricalPoint)
    (hmiss : isCacheValid cache env.now
      ("historical_" ++ symbol ++ "_" ++ period ++ "_" ++ interval) 300000 = false)
    (hav : (getAlphaVantageHistorical env.alphaVantageKey symbol interval env.avResp
      env.qr env.rs env.now).1 = some d) :
    getHistoricalData cache symbol period interval env =
      { data := some d
        cache := cacheSet cache ("historical_" ++ symbol ++ "_" ++ period ++ "_" ++ interval)
          d env.now
        avInvoked := true, threw := false } := by
  unfold getHistoricalData
  simp [hmiss, hav]

theorem hist_av_none (cache : Cache (List HistoricalPoint))
    (symbol period interval : String) (env : HistEnv)
    (hmiss : isCacheValid cache env.now
      ("historical_" ++ symbol ++ "_" ++ period ++ "_" ++ interval) 300000 = false)
    (hav : (getAlphaVantageHistorical env.alphaVantageKey symbol interval env.avResp
      env.qr env.rs env.now).1 = none) :
    getHistoricalData cache symbol period interval env =
      { data := some (getFallbackHistoricalData symbol env.qr env.rs env.now)
        cache := cache, avInvoked := true, threw := true } := by
  unfold getHistoricalData
  simp [hmiss, hav]

theorem ind_hit (cache : Cache (List (String × List IndicatorPoint))) (symbol : String)
    (indicators : List String) (env : IndEnv)
    (h : isCacheValid cache env.now
      ("indicators_" ++ symbol ++ "_" ++ String.intercalate "_" indicators) 300000 = true) :
    getTechnicalIndicators cache symbol indicators env =
      { results := ((cacheGet cache
          ("indicators_" ++ symbol ++ "_" ++ String.intercalate "_" indicators)).map
            (fun e => e.1)).getD []
        cache := cache, invoked := [] } := by
  unfold getTechnicalIndicators
  simp [h]

theorem ind_miss (cache : Cache (List (String × List IndicatorPoint))) (symbol : String)
    (indicators : List String) (env : IndEnv)
    (hmiss : isCacheValid cache env.now
      ("indicators_" ++ symbol ++ "_" ++ String.intercalate "_" indicators) 300000 = false) :
    getTechnicalIndicators cache symbol indicators env =
      { results := collectIndicators env.alphaVantageKey symbol env.resp env.rsFor
          env.now indicators []
        cache :=
          if (collectIndicators env.alphaVantageKey symbol env.resp env.rsFor
              env.now indicators []).length > 0 then
            cacheSet cache ("indicators_" ++ symbol ++ "_" ++ String.intercalate "_" indicators)
              (collectIndicators env.alphaVantageKey symbol env.resp env.rsFor
                env.now indicators []) env.now
          else cache
        invoked := indicators } := by
  unfold getTechnicalIndicators
  simp [hmiss]

theorem rtq_success_cache (cache : Cache Quote) (symbol : String) (env : QuoteEnv)
    (q : Quote)
    (hmiss : isCacheValid cache env.now ("quote_" ++ symbol) cacheTimeout = false)
    (hq : (getRealTimeQuote cache symbol env).quote = some q) :
    (getRealTimeQuote cache symbol env).cache
      = cacheSet cache ("quote_" ++ symbol) q env.now := by
  rcases hav : (getAlphaVantageQuote env.alphaVantageKey symbol env.avResp env.rnd
      env.now).1 with _ | q1
  · rcases hfh : (getFinnhubQuote env.finnhubKey symbol env.fhResp).1 with _ | q2
    · rcases hpoly : (getPolygonQuote env.polygonKey symbol env.polyResp).1 with _ | q3
      · rw [rtq_all_none cache symbol env hmiss hav hfh hpoly] at hq
        simp at hq
      · rw [rtq_poly_some cache symbol env q3 hmiss hav hfh hpoly] at hq ⊢
        simp only [Option.some.injEq] at hq
        rw [hq]
    · rw [rtq_fh_some cache symbol env q2 hmiss hav hfh] at hq ⊢
      simp only [Option.some.injEq] at hq
      rw [hq]
  · rw [rtq_av_some cache symbol env q1 hmiss hav] at hq ⊢
    simp only [Option.some.injEq] at hq
    rw [hq]

theorem getFinnhubQuote_source (key symbol : String) (resp : Option FinnhubResp)
    (q : Quote) (h : (getFinnhubQuote key symbol resp).1 = some q) :
    q.source = "Finnhub" := by
  unfold getFinnhubQuote at h
  by_cases hk : key = "demo"
  · simp [hk] at h
  · rcases resp with _ | r
    · simp [hk] at h
    · by_cases hc : r.c = 0
      · simp [hk, hc] at h
      · simp only [if_neg hk, if_neg hc] at h
        simp only [Option.some.injEq] at h
        rw [← h]
        rfl

/-! ## Claim theorems -/

/-- C4: every provider adapter other than those of Alpha Vantage (the first provider
in quote priority) returns no-data on the placeholder key `"demo"` without a network
call, while the Alpha Vantage adapters substitute synthetic data directly (again
without a network call) when the key is the placeholder. -/
theorem demo_key_adapters (symbol interval indicator : String)
    (avResp : Option AVGlobalQuote) (fhResp : Option FinnhubResp)
    (polyResp : Option PolygonResult) (histResp : Option (List RawBar))
    (indResp : Option (List (ℤ × (String → ℚ)))) (rnd : QuoteRand)
    (qr : QuoteRand) (prs : ℕ → PointRand) (irs : ℕ → IndRand) (now : ℤ) :
    getFinnhubQuote "demo" symbol fhResp = (none, false)
    ∧ getPolygonQuote "demo" symbol polyResp = (none, false)
    ∧ getAlphaVantageQuote "demo" symbol avResp rnd now
        = (some (getFallbackQuote symbol rnd now), false)
    ∧ getAlphaVantageHistorical "demo" symbol interval histResp qr prs now
        = (some (getFallbackHistoricalData symbol qr prs now), false)
    ∧ getAlphaVantageIndicator "demo" symbol indicator indResp irs now
        = (some (getFallbackIndicator symbol indicator irs now), false) :=
  ⟨rfl, rfl, rfl, rfl, rfl⟩

/-- C8: `isMarketOpen` returns true exactly when the New York weekday is Monday
through Friday (`getDay` gives 1..5) and the local time lies in [09:30, 16:00); in
particular it is true on a Wednesday 10:00, false on a Saturday 10:00 and false on
a Wednesday 17:00. -/
theorem isMarketOpen_iff :
    (∀ day hour minute : ℕ, minute ≤ 59 →
      (isMarketOpen day hour minute = true ↔
        (1 ≤ day ∧ day ≤ 5 ∧ 570 ≤ 60 * hour + minute ∧ 60 * hour + minute < 960)))
    ∧ isMarketOpen 3 10 0 = true
    ∧ isMarketOpen 6 10 0 = false
    ∧ isMarketOpen 3 17 0 = false := by
  refine ⟨?_, by decide, by decide, by decide⟩
  intro day hour minute hm
  unfold isMarketOpen
  simp only [Bool.and_eq_true, decide_eq_true_eq]
  omega

/-- Witness for C8 at a concrete weekday and time. -/
theorem isMarketOpen_iff_witness :
    (10 : ℕ) ≤ 59 ∧ (isMarketOpen 3 10 10 = true ↔
      (1 ≤ 3 ∧ 3 ≤ 5 ∧ 570 ≤ 60 * 10 + 10 ∧ 60 * 10 + 10 < 960)) :=
  ⟨by decide, isMarketOpen_iff.1 3 10 10 (by decide)⟩

/-- C9: `rateLimitDelay` resumes no earlier than `lastApiCall + minApiInterval` and
no earlier than the current time, and records the resume time; hence the recorded
times of two consecutive awaited calls are separated by at least `minApiInterval`
(1000 ms) of wall-clock time. -/
theorem rateLimitDelay_spacing (lastApiCall now now2 : ℤ) :
    lastApiCall + minApiInterval ≤ rateLimitDelay lastApiCall now
    ∧ now ≤ rateLimitDelay lastApiCall now
    ∧ rateLimitDelay lastApiCall now + minApiInterval
        ≤ rateLimitDelay (rateLimitDelay lastApiCall now) now2 := by
  have h : ∀ l n : ℤ, l + minApiInterval ≤ rateLimitDelay l n ∧ n ≤ rateLimitDelay l n := by
    intro l n
    unfold rateLimitDelay minApiInterval
    split <;> constructor <;> omega
  exact ⟨(h _ _).1, (h _ _).2, (h _ _).1⟩

/-- Concrete quote environment with non-placeholder keys and no provider data. -/
def qEnvAllNone : QuoteEnv :=
  { alphaVantageKey := "k", finnhubKey := "k", polygonKey := "k"
    avResp := none, fhResp := none, polyResp := none
    rnd := ⟨0, 0, 0, 0, 0⟩, now := 0 }

/-- C1 counterexample: with non-placeholder keys and every configured quote
provider returning no-data, `getRealTimeQuote` returns `none` — not a non-null
synthetic quote with source `"Demo Data"` as the claim states. -/
theorem exhausted_chain_returns_none_cex :
    (getAlphaVantageQuote qEnvAllNone.alphaVantageKey "AAPL" qEnvAllNone.avResp
      qEnvAllNone.rnd qEnvAllNone.now).1 = none
    ∧ (getFinnhubQuote qEnvAllNone.finnhubKey "AAPL" qEnvAllNone.fhResp).1 = none
    ∧ (getPolygonQuote qEnvAllNone.polygonKey "AAPL" qEnvAllNone.polyResp).1 = none
    ∧ (getRealTimeQuote [] "AAPL" qEnvAllNone).quote = none :=
  ⟨rfl, rfl, rfl, rfl⟩

/-- C1 (amended): on a cache miss, if all configured quote providers return
no-data, `getRealTimeQuote` returns `none` and leaves the cache unchanged; no error
reaches the caller (the adapters catch their own failures, and a thrown error would
be masked by the `catch` branch returning synthetic data), but the total-exhaustion
result is null rather than a synthetic `"Demo Data"` quote. -/
theorem exhausted_chain_returns_none (cache : Cache Quote) (symbol : String)
    (env : QuoteEnv)
    (hmiss : isCacheValid cache env.now ("quote_" ++ symbol) cacheTimeout = false)
    (hav : (getAlphaVantageQuote env.alphaVantageKey symbol env.avResp env.rnd
      env.now).1 = none)
    (hfh : (getFinnhubQuote env.finnhubKey symbol env.fhResp).1 = none)
    (hpoly : (getPolygonQuote env.polygonKey symbol env.polyResp).1 = none) :
    (getRealTimeQuote cache symbol env).quote = none
    ∧ (getRealTimeQuote cache symbol env).cache = cache := by
  rw [rtq_all_none cache symbol env hmiss hav hfh hpoly]
  exact ⟨rfl, rfl⟩

/-- Witness for C1's amended theorem at a concrete exhausted environment. -/
theorem exhausted_chain_returns_none_witness :
    (isCacheValid ([] : Cache Quote) qEnvAllNone.now ("quote_" ++ "AAPL") cacheTimeout
        = false
      ∧ (getAlphaVantageQuote qEnvAllNone.alphaVantageKey "AAPL" qEnvAllNone.avResp
          qEnvAllNone.rnd qEnvAllNone.now).1 = none
      ∧ (getFinnhubQuote qEnvAllNone.finnhubKey "AAPL" qEnvAllNone.fhResp).1 = none
      ∧ (getPolygonQuote qEnvAllNone.polygonKey "AAPL" qEnvAllNone.polyResp).1 = none)
    ∧ ((getRealTimeQuote [] "AAPL" qEnvAllNone).quote = none
      ∧ (getRealTimeQuote [] "AAPL" qEnvAllNone).cache = []) :=
  ⟨⟨by decide, by decide, by decide, by decide⟩,
    exhausted_chain_returns_none [] "AAPL" qEnvAllNone (by decide) (by decide)
      (by decide) (by decide)⟩

/-- C5: after a successful fetch on a cache miss, a second call to the same
operation with the same arguments whose age is strictly below the data-kind's TTL
(60000 ms for quotes, 300000 ms for historical data and indicators) returns the
identical cached value, leaves the cache unchanged and invokes no provider
adapter. -/
theorem cache_roundTrip_within_ttl :
    (∀ (cache : Cache Quote) (symbol : String) (env1 env2 : QuoteEnv) (q : Quote),
      isCacheValid cache env1.now ("quote_" ++ symbol) cacheTimeout = false →
      (getRealTimeQuote cache symbol env1).quote = some q →
      env2.now - env1.now < cacheTimeout →
      getRealTimeQuote (getRealTimeQuote cache symbol env1).cache symbol env2 =
        { quote := some q, cache := (getRealTimeQuote cache symbol env1).cache
          avInvoked := false, fhInvoked := false, polyInvoked := false })
    ∧ (∀ (cache : Cache (List HistoricalPoint)) (symbol period interval : String)
        (env1 env2 : HistEnv) (d : List HistoricalPoint),
      isCacheValid cache env1.now
        ("historical_" ++ symbol ++ "_" ++ period ++ "_" ++ interval) 300000 = false →
      (getAlphaVantageHistorical env1.alphaVantageKey symbol interval env1.avResp
        env1.qr env1.rs env1.now).1 = some d →
      env2.now - env1.now < 300000 →
      getHistoricalData (getHistoricalData cache symbol period interval env1).cache
          symbol period interval env2 =
        { data := some d
          cache := (getHistoricalData cache symbol period interval env1).cache
          avInvoked := false, threw := false })
    ∧ (∀ (cache : Cache (List (String × List IndicatorPoint))) (symbol : String)
        (indicators : List String) (env1 env2 : IndEnv),
      isCacheValid cache env1.now
        ("indicators_" ++ symbol ++ "_" ++ String.intercalate "_" indicators) 300000
          = false →
      (getTechnicalIndicators cache symbol indicators env1).results ≠ [] →
      env2.now - env1.now < 300000 →
      getTechnicalIndicators (getTechnicalIndicators cache symbol indicators env1).cache
          symbol indicators env2 =
        { results := (getTechnicalIndicators cache symbol indicators env1).results
          cache := (getTechnicalIndicators cache symbol indicators env1).cache
          invoked := [] }) := by
  refine ⟨?_, ?_, ?_⟩
  · intro cache symbol env1 env2 q hmiss hq httl
    have hc := rtq_success_cache cache symbol env1 q hmiss hq
    rw [hc]
    have hvalid : isCacheValid (cacheSet cache ("quote_" ++ symbol) q env1.now)
        env2.now ("quote_" ++ symbol) cacheTimeout = true := by
      rw [isCacheValid_cacheSet]
      exact decide_eq_true httl
    rw [rtq_hit _ symbol env2 hvalid]
    rw [cacheGet_cacheSet]
    rfl
  · intro cache symbol period interval env1 env2 d hmiss hav httl
    rw [hist_av_some cache symbol period interval env1 d hmiss hav]
    have hvalid : isCacheValid
        (cacheSet cache ("historical_" ++ symbol ++ "_" ++ period ++ "_" ++ interval)
          d env1.now) env2.now
        ("historical_" ++ symbol ++ "_" ++ period ++ "_" ++ interval) 300000 = true := by
      rw [isCacheValid_cacheSet]
      exact decide_eq_true httl
    rw [hist_hit _ symbol period interval env2 hvalid]
    rw [cacheGet_cacheSet]
    rfl
  · intro cache symbol indicators env1 env2 hmiss hne httl
    rw [ind_miss cache symbol indicators env1 hmiss] at hne ⊢
    simp only at hne ⊢
    have hlen : (collectIndicators env1.alphaVantageKey symbol env1.resp env1.rsFor
        env1.now indicators []).length > 0 := by
      cases hcoll : collectIndicators env1.alphaVantageKey symbol env1.resp env1.rsFor
          env1.now indicators [] with
      | nil => exact absurd hcoll hne
      | cons a l => simp [hcoll]
    rw [if_pos hlen]
    have hvalid : isCacheValid
        (cacheSet cache ("indicators_" ++ symbol ++ "_" ++ String.intercalate "_" indicators)
          (collectIndicators env1.alphaVantageKey symbol env1.resp env1.rsFor
            env1.now indicators []) env1.now) env2.now
        ("indicators_" ++ symbol ++ "_" ++ String.intercalate "_" indicators) 300000
          = true := by
      rw [isCacheValid_cacheSet]
      exact decide_eq_true httl
    rw [ind_hit _ symbol indicators env2 hvalid]
    rw [cacheGet_cacheSet]
    rfl

/-- Concrete environment for the quote round trip: Alpha Vantage has no data,
Finnhub answers. -/
def qEnvRT1 : QuoteEnv :=
  { alphaVantageKey := "k", finnhubKey := "k", polygonKey := "k"
    avResp := none
    fhResp := some ⟨10, 1, 2, 3, 4, 5, 6, 7⟩
    polyResp := none, rnd := ⟨0, 0, 0, 0, 0⟩, now := 0 }

/-- The same environment 1000 ms later. -/
def qEnvRT2 : QuoteEnv := { qEnvRT1 with now := 1000 }

/-- The quote `qEnvRT1` produces through the Finnhub adapter. -/
def qRT : Quote :=
  { symbol := "AAPL", price := 10, change := 1, changePercent := 2, volume := none
    high := 3, low := 4, open_ := 5, previousClose := 6, timestamp := 7000
    source := "Finnhub" }

/-- Concrete environment for the historical round trip: one Alpha Vantage bar. -/
def hEnvRT1 : HistEnv :=
  { alphaVantageKey := "k", avResp := some [⟨0, 1, 2, 3, 4, 5⟩]
    qr := ⟨0, 0, 0, 0, 0⟩, rs := fun _ => ⟨0, 0, 0, 0, 0⟩, now := 0 }

/-- The same environment 1000 ms later. -/
def hEnvRT2 : HistEnv := { hEnvRT1 with now := 1000 }

/-- The series `hEnvRT1` produces. -/
def dRT : List HistoricalPoint := [⟨0, 1, 2, 3, 4, 5⟩]

/-- Concrete environment for the indicator round trip: one RSI entry. -/
def iEnvRT1 : IndEnv :=
  { alphaVantageKey := "k", resp := fun _ => some [(0, fun _ => 50)]
    rsFor := fun _ _ => ⟨0, 0, 0⟩, now := 0 }

/-- The same environment 1000 ms later. -/
def iEnvRT2 : IndEnv := { iEnvRT1 with now := 1000 }

/-- Witness for C5 at concrete environments for all three data kinds. -/
theorem cache_roundTrip_within_ttl_witness :
    (isCacheValid ([] : Cache Quote) qEnvRT1.now ("quote_" ++ "AAPL") cacheTimeout = false
      ∧ (getRealTimeQuote [] "AAPL" qEnvRT1).quote = some qRT
      ∧ qEnvRT2.now - qEnvRT1.now < cacheTimeout
      ∧ getRealTimeQuote (getRealTimeQuote [] "AAPL" qEnvRT1).cache "AAPL" qEnvRT2 =
          { quote := some qRT, cache := (getRealTimeQuote [] "AAPL" qEnvRT1).cache
            avInvoked := false, fhInvoked := false, polyInvoked := false })
    ∧ ((getAlphaVantageHistorical hEnvRT1.alphaVantageKey "AAPL" "5min" hEnvRT1.avResp
          hEnvRT1.qr hEnvRT1.rs hEnvRT1.now).1 = some dRT
      ∧ getHistoricalData (getHistoricalData [] "AAPL" "1D" "5min" hEnvRT1).cache
          "AAPL" "1D" "5min" hEnvRT2 =
          { data := some dRT
            cache := (getHistoricalData [] "AAPL" "1D" "5min" hEnvRT1).cache
            avInvoked := false, threw := false })
    ∧ ((getTechnicalIndicators [] "AAPL" ["RSI"] iEnvRT1).results ≠ []
      ∧ getTechnicalIndicators (getTechnicalIndicators [] "AAPL" ["RSI"] iEnvRT1).cache
          "AAPL" ["RSI"] iEnvRT2 =
          { results := (getTechnicalIndicators [] "AAPL" ["RSI"] iEnvRT1).results
            cache := (getTechnicalIndicators [] "AAPL" ["RSI"] iEnvRT1).cache
            invoked := [] }) :=
  ⟨⟨by decide, by decide, by decide,
      cache_roundTrip_within_ttl.1 [] "AAPL" qEnvRT1 qEnvRT2 qRT (by decide) (by decide)
        (by decide)⟩,
    ⟨by decide,
      cache_roundTrip_within_ttl.2.1 [] "AAPL" "1D" "5min" hEnvRT1 hEnvRT2 dRT
        (by decide) (by decide) (by decide)⟩,
    ⟨by decide,
      cache_roundTrip_within_ttl.2.2 [] "AAPL" ["RSI"] iEnvRT1 iEnvRT2 (by decide)
        (by decide) (by decide)⟩⟩

/-- C6: on a cache miss the providers are tried in the fixed order Alpha Vantage,
Finnhub, Polygon; when the first returns no-data and the second succeeds, the
returned quote is the second provider's, its `source` is `"Finnhub"`, and the third
provider's adapter is never invoked. -/
theorem fallback_order_second_provider (cache : Cache Quote) (symbol : String)
    (env : QuoteEnv) (q : Quote)
    (hmiss : isCacheValid cache env.now ("quote_" ++ symbol) cacheTimeout = false)
    (hav : (getAlphaVantageQuote env.alphaVantageKey symbol env.avResp env.rnd
      env.now).1 = none)
    (hfh : (getFinnhubQuote env.finnhubKey symbol env.fhResp).1 = some q) :
    (getRealTimeQuote cache symbol env).quote = some q
    ∧ q.source = "Finnhub"
    ∧ (getRealTimeQuote cache symbol env).avInvoked = true
    ∧ (getRealTimeQuote cache symbol env).fhInvoked = true
    ∧ (getRealTimeQuote cache symbol env).polyInvoked = false := by
  rw [rtq_fh_some cache symbol env q hmiss hav hfh]
  exact ⟨rfl, getFinnhubQuote_source env.finnhubKey symbol env.fhResp q hfh, rfl, rfl, rfl⟩

/-- Witness for C6 at a concrete environment where Finnhub answers. -/
theorem fallback_order_second_provider_witness :
    (isCacheValid ([] : Cache Quote) qEnvRT1.now ("quote_" ++ "AAPL") cacheTimeout = false
      ∧ (getAlphaVantageQuote qEnvRT1.alphaVantageKey "AAPL" qEnvRT1.avResp qEnvRT1.rnd
          qEnvRT1.now).1 = none
      ∧ (getFinnhubQuote qEnvRT1.finnhubKey "AAPL" qEnvRT1.fhResp).1 = some qRT)
    ∧ ((getRealTimeQuote [] "AAPL" qEnvRT1).quote = some qRT
      ∧ qRT.source = "Finnhub"
      ∧ (getRealTimeQuote [] "AAPL" qEnvRT1).avInvoked = true
      ∧ (getRealTimeQuote [] "AAPL" qEnvRT1).fhInvoked = true
      ∧ (getRealTimeQuote [] "AAPL" qEnvRT1).polyInvoked = false) :=
  ⟨⟨by decide, by decide, by decide⟩,
    fallback_order_second_provider [] "AAPL" qEnvRT1 qRT (by decide) (by decide)
      (by decide)⟩

/-- C10: cache writes happen only on success.  If the quote chain yields no truthy
value, `getRealTimeQuote` leaves the cache unchanged; if `getHistoricalData` takes
its `catch` path (which happens exactly when Alpha Vantage yields no data, since
the `getFinnhubHistorical` it then invokes does not exist), the synthetic fallback
series is returned but never written to the cache. -/
theorem cache_write_only_on_success :
    (∀ (cache : Cache Quote) (symbol : String) (env : QuoteEnv),
      (getRealTimeQuote cache symbol env).quote = none →
      (getRealTimeQuote cache symbol env).cache = cache)
    ∧ (∀ (cache : Cache (List HistoricalPoint)) (symbol period interval : String)
        (env : HistEnv),
      (getHistoricalData cache symbol period interval env).threw = true →
      (getHistoricalData cache symbol period interval env).cache = cache
      ∧ (getHistoricalData cache symbol period interval env).data
          = some (getFallbackHistoricalData symbol env.qr env.rs env.now)) := by
  constructor
  · intro cache symbol env hq
    by_cases hvalid : isCacheValid cache env.now ("quote_" ++ symbol) cacheTimeout = true
    · rw [rtq_hit cache symbol env hvalid]
    · have hmiss : isCacheValid cache env.now ("quote_" ++ symbol) cacheTimeout = false := by
        simpa using hvalid
      rcases hav : (getAlphaVantageQuote env.alphaVantageKey symbol env.avResp env.rnd
          env.now).1 with _ | q1
      · rcases hfh : (getFinnhubQuote env.finnhubKey symbol env.fhResp).1 with _ | q2
        · rcases hpoly : (getPolygonQuote env.polygonKey symbol env.polyResp).1 with _ | q3
          · rw [rtq_all_none cache symbol env hmiss hav hfh hpoly]
          · rw [rtq_poly_some cache symbol env q3 hmiss hav hfh hpoly] at hq
            simp at hq
        · rw [rtq_fh_some cache symbol env q2 hmiss hav hfh] at hq
          simp at hq
      · rw [rtq_av_some cache symbol env q1 hmiss hav] at hq
        simp at hq
  · intro cache symbol period interval env ht
    by_cases hvalid : isCacheValid cache env.now
        ("historical_" ++ symbol ++ "_" ++ period ++ "_" ++ interval) 300000 = true
    · rw [hist_hit cache symbol period interval env hvalid] at ht
      simp at ht
    · have hmiss : isCacheValid cache env.now
          ("historical_" ++ symbol ++ "_" ++ period ++ "_" ++ interval) 300000 = false := by
        simpa using hvalid
      rcases hav : (getAlphaVantageHistorical env.alphaVantageKey symbol interval
          env.avResp env.qr env.rs env.now).1 with _ | d
      · rw [hist_av_none cache symbol period interval env hmiss hav]
        exact ⟨rfl, rfl⟩
      · rw [hist_av_some cache symbol period interval env d hmiss hav] at ht
        simp at ht

/-- Concrete historical environment that takes the `catch` path. -/
def hEnvThrow : HistEnv :=
  { alphaVantageKey := "k", avResp := none
    qr := ⟨0, 0, 0, 0, 0⟩, rs := fun _ => ⟨0, 0, 0, 0, 0⟩, now := 0 }

/-- Witness for C10 at concrete exhausted and throwing environments. -/
theorem cache_write_only_on_success_witness :
    ((getRealTimeQuote [] "AAPL" qEnvAllNone).quote = none
      ∧ (getRealTimeQuote [] "AAPL" qEnvAllNone).cache = [])
    ∧ ((getHistoricalData [] "AAPL" "1D" "5min" hEnvThrow).threw = true
      ∧ (getHistoricalData [] "AAPL" "1D" "5min" hEnvThrow).cache = []
      ∧ (getHistoricalData [] "AAPL" "1D" "5min" hEnvThrow).data
          = some (getFallbackHistoricalData "AAPL" hEnvThrow.qr hEnvThrow.rs hEnvThrow.now)) :=
  ⟨⟨by decide, cache_write_only_on_success.1 [] "AAPL" qEnvAllNone (by decide)⟩,
    ⟨by decide,
      (cache_write_only_on_success.2 [] "AAPL" "1D" "5min" hEnvThrow (by decide)).1,
      (cache_write_only_on_success.2 [] "AAPL" "1D" "5min" hEnvThrow (by decide)).2⟩⟩

/-- The spec's Quote invariant: `changePercent == change / previousClose * 100`. -/
def quoteInvariant (q : Quote) : Prop :=
  q.changePercent = q.change / q.previousClose * 100

/-- The fields the Alpha Vantage adapter copies verbatim are self-consistent. -/
def avSelfConsistent (resp : Option AVGlobalQuote) : Prop :=
  ∀ a, resp = some a → a.changePercent = a.change / a.previousClose * 100

/-- The fields the Finnhub adapter copies verbatim are self-consistent. -/
def fhSelfConsistent (resp : Option FinnhubResp) : Prop :=
  ∀ r, resp = some r → r.dp = r.d / r.pc * 100

theorem getFallbackQuote_previousClose (symbol : String) (rnd : QuoteRand) (now : ℤ) :
    (getFallbackQuote symbol rnd now).previousClose = baseValues symbol := by
  unfold getFallbackQuote
  simp only
  ring

theorem getFallbackQuote_invariant (symbol : String) (rnd : QuoteRand) (now : ℤ) :
    quoteInvariant (getFallbackQuote symbol rnd now) := by
  unfold quoteInvariant getFallbackQuote
  simp only
  ring_nf

theorem rtq_quote_cases (symbol : String) (env : QuoteEnv) (q : Quote)
    (hq : (getRealTimeQuote [] symbol env).quote = some q) :
    (env.alphaVantageKey = "demo" ∧ q = getFallbackQuote symbol env.rnd env.now)
    ∨ (∃ a, env.avResp = some a ∧ q = avQuoteOf symbol a)
    ∨ (∃ r, env.fhResp = some r ∧ q = fhQuoteOf symbol r)
    ∨ (∃ r, env.polyResp = some r ∧ q = polyQuoteOf symbol r) := by
  have hmiss : isCacheValid ([] : Cache Quote) env.now ("quote_" ++ symbol)
      cacheTimeout = false := rfl
  by_cases hkAV : env.alphaVantageKey = "demo"
  · have hav : (getAlphaVantageQuote env.alphaVantageKey symbol env.avResp env.rnd
        env.now).1 = some (getFallbackQuote symbol env.rnd env.now) := by
      unfold getAlphaVantageQuote
      rw [if_pos hkAV]
    rw [rtq_av_some [] symbol env _ hmiss hav] at hq
    simp only [Option.some.injEq] at hq
    exact Or.inl ⟨hkAV, hq.symm⟩
  · rcases hrespA : env.avResp with _ | a
    · have hav : (getAlphaVantageQuote env.alphaVantageKey symbol env.avResp env.rnd
          env.now).1 = none := by
        unfold getAlphaVantageQuote
        rw [if_neg hkAV, hrespA]
      have polyCase :
          (getFinnhubQuote env.finnhubKey symbol env.fhResp).1 = none →
          (∃ r, env.polyResp = some r ∧ q = polyQuoteOf symbol r) := by
        intro hfh
        by_cases hkP : env.polygonKey = "demo"
        · have hpoly : (getPolygonQuote env.polygonKey symbol env.polyResp).1 = none := by
            unfold getPolygonQuote
            rw [if_pos hkP]
          rw [rtq_all_none [] symbol env hmiss hav hfh hpoly] at hq
          simp at hq
        · rcases hrespP : env.polyResp with _ | r
          · have hpoly : (getPolygonQuote env.polygonKey symbol env.polyResp).1 = none := by
              unfold getPolygonQuote
              rw [if_neg hkP, hrespP]
            rw [rtq_all_none [] symbol env hmiss hav hfh hpoly] at hq
            simp at hq
          · have hpoly : (getPolygonQuote env.polygonKey symbol env.polyResp).1 =
                some (polyQuoteOf symbol r) := by
              unfold getPolygonQuote
              rw [if_neg hkP, hrespP]
            rw [rtq_poly_some [] symbol env _ hmiss hav hfh hpoly] at hq
            simp only [Option.some.injEq] at hq
            exact ⟨r, rfl, hq.symm⟩
      by_cases hkF : env.finnhubKey = "demo"
      · exact Or.inr (Or.inr (Or.inr (polyCase
          (by unfold getFinnhubQuote; rw [if_pos hkF]))))
      · rcases hrespF : env.fhResp with _ | r
        · exact Or.inr (Or.inr (Or.inr (polyCase
            (by unfold getFinnhubQuote; rw [if_neg hkF, hrespF]))))
        · by_cases hc : r.c = 0
          · exact Or.inr (Or.inr (Or.inr (polyCase
              (by unfold getFinnhubQuote; rw [if_neg hkF, hrespF]; simp [hc]))))
          · have hfh : (getFinnhubQuote env.finnhubKey symbol env.fhResp).1 =
                some (fhQuoteOf symbol r) := by
              unfold getFinnhubQuote
              rw [if_neg hkF, hrespF]
              simp [hc]
            rw [rtq_fh_some [] symbol env _ hmiss hav hfh] at hq
            simp only [Option.some.injEq] at hq
            exact Or.inr (Or.inr (Or.inl ⟨r, rfl, hq.symm⟩))
    · have hav : (getAlphaVantageQuote env.alphaVantageKey symbol env.avResp env.rnd
          env.now).1 = some (avQuoteOf symbol a) := by
        unfold getAlphaVantageQuote
        rw [if_neg hkAV, hrespA]
      rw [rtq_av_some [] symbol env _ hmiss hav] at hq
      simp only [Option.some.injEq] at hq
      exact Or.inr (Or.inl ⟨a, rfl, hq.symm⟩)

/-- Concrete environment in which only Polygon answers, with `c = 200`, `o = 100`. -/
def qEnvPoly : QuoteEnv :=
  { alphaVantageKey := "k", finnhubKey := "k", polygonKey := "k"
    avResp := none, fhResp := none
    polyResp := some ⟨200, 100, 0, 0, 0, 0⟩
    rnd := ⟨0, 0, 0, 0, 0⟩, now := 0 }

/-- The quote `qEnvPoly` produces through the Polygon adapter. -/
def qPoly : Quote := polyQuoteOf "AAPL" ⟨200, 100, 0, 0, 0, 0⟩

/-- C2 counterexample: a Polygon-sourced quote violates
`changePercent == change / previousClose * 100`, because the adapter computes
`changePercent` against the aggregate's open while setting `previousClose` to the
close: here `changePercent = 100` but `change / previousClose * 100 = 50`. -/
theorem quote_changePercent_invariant_cex :
    (getRealTimeQuote [] "AAPL" qEnvPoly).quote = some qPoly
    ∧ qPoly.source = "Polygon"
    ∧ ¬ quoteInvariant qPoly := by
  refine ⟨rfl, rfl, ?_⟩
  unfold quoteInvariant qPoly polyQuoteOf
  norm_num

/-- C2 (amended): for a quote returned by `getRealTimeQuote` on an empty cache,
the invariant `changePercent == change / previousClose * 100` holds for Alpha
Vantage and Finnhub quotes (whose fields are copied verbatim, assumed
self-consistent) and for synthetic quotes, whose `previousClose` equals the
symbol's base price; a Polygon quote instead satisfies
`changePercent == change / open * 100` with `previousClose` equal to its price. -/
theorem quote_changePercent_invariant (symbol : String) (env : QuoteEnv) (q : Quote)
    (hq : (getRealTimeQuote [] symbol env).quote = some q) :
    (q.source = "Alpha Vantage" → avSelfConsistent env.avResp → quoteInvariant q)
    ∧ (q.source = "Finnhub" → fhSelfConsistent env.fhResp → quoteInvariant q)
    ∧ (q.source = "Polygon" →
        q.changePercent = q.change / q.open_ * 100 ∧ q.previousClose = q.price)
    ∧ (q.source = "Demo Data" →
        q.previousClose = baseValues symbol ∧ quoteInvariant q) := by
  rcases rtq_quote_cases symbol env q hq with ⟨_, rfl⟩ | ⟨a, ha, rfl⟩ | ⟨r, hr, rfl⟩ |
    ⟨r, hr, rfl⟩
  · refine ⟨?_, ?_, ?_, ?_⟩
    · intro hsrc
      simp only [getFallbackQuote] at hsrc
      exact absurd hsrc (by decide)
    · intro hsrc
      simp only [getFallbackQuote] at hsrc
      exact absurd hsrc (by decide)
    · intro hsrc
      simp only [getFallbackQuote] at hsrc
      exact absurd hsrc (by decide)
    · intro _
      exact ⟨getFallbackQuote_previousClose symbol env.rnd env.now,
        getFallbackQuote_invariant symbol env.rnd env.now⟩
  · refine ⟨?_, ?_, ?_, ?_⟩
    · intro _ hsc
      exact hsc a ha
    · intro hsrc
      simp only [avQuoteOf] at hsrc
      exact absurd hsrc (by decide)
    · intro hsrc
      simp only [avQuoteOf] at hsrc
      exact absurd hsrc (by decide)
    · intro hsrc
      simp only [avQuoteOf] at hsrc
      exact absurd hsrc (by decide)
  · refine ⟨?_, ?_, ?_, ?_⟩
    · intro hsrc
      simp only [fhQuoteOf] at hsrc
      exact absurd hsrc (by decide)
    · intro _ hsc
      exact hsc r hr
    · intro hsrc
      simp only [fhQuoteOf] at hsrc
      exact absurd hsrc (by decide)
    · intro hsrc
      simp only [fhQuoteOf] at hsrc
      exact absurd hsrc (by decide)
  · refine ⟨?_, ?_, ?_, ?_⟩
    · intro hsrc
      simp only [polyQuoteOf] at hsrc
      exact absurd hsrc (by decide)
    · intro hsrc
      simp only [polyQuoteOf] at hsrc
      exact absurd hsrc (by decide)
    · intro _
      exact ⟨rfl, rfl⟩
    · intro hsrc
      simp only [polyQuoteOf] at hsrc
      exact absurd hsrc (by decide)

/-- Witness for C2's amended theorem at the concrete Polygon environment. -/
theorem quote_changePercent_invariant_witness :
    (getRealTimeQuote [] "AAPL" qEnvPoly).quote = some qPoly
    ∧ qPoly.changePercent = qPoly.change / qPoly.open_ * 100
    ∧ qPoly.previousClose = qPoly.price :=
  ⟨rfl, (quote_changePercent_invariant "AAPL" qEnvPoly qPoly rfl).2.2.1 rfl⟩

/-- Sorted descending by timestamp (most recent first). -/
def sortedByTimestampDesc (l : List IndicatorPoint) : Prop :=
  l.Chain' (fun a b => b.timestamp ≤ a.timestamp)

/-- Sorted ascending by timestamp (oldest first). -/
def sortedByTimestampAsc (l : List IndicatorPoint) : Prop :=
  l.Chain' (fun a b => a.timestamp ≤ b.timestamp)

/-- Executable check for descending timestamp order (the library decidability
instance for `Chain'` does not reduce in the kernel). -/
def sortedDescCheck : List IndicatorPoint → Bool
  | [] => true
  | [_] => true
  | a :: b :: rest => decide (b.timestamp ≤ a.timestamp) && sortedDescCheck (b :: rest)

theorem sortedDescCheck_iff (l : List IndicatorPoint) :
    sortedDescCheck l = true ↔ sortedByTimestampDesc l := by
  induction l with
  | nil => simp [sortedDescCheck, sortedByTimestampDesc]
  | cons a t ih =>
      cases t with
      | nil => simp [sortedDescCheck, sortedByTimestampDesc]
      | cons b r =>
          unfold sortedDescCheck sortedByTimestampDesc
          rw [Bool.and_eq_true, decide_eq_true_iff, List.chain'_cons]
          exact and_congr_right fun _ => ih

instance (l : List IndicatorPoint) : Decidable (sortedByTimestampDesc l) :=
  decidable_of_iff _ (sortedDescCheck_iff l)

instance : IsTrans IndicatorPoint (fun a b => b.timestamp ≤ a.timestamp) :=
  ⟨fun _ _ _ h1 h2 => le_trans h2 h1⟩

instance : IsTotal IndicatorPoint (fun a b => b.timestamp ≤ a.timestamp) :=
  ⟨fun a b => le_total b.timestamp a.timestamp⟩

theorem parseIndicatorData_sortedDesc (data : List (ℤ × (String → ℚ)))
    (type : String) : sortedByTimestampDesc (parseIndicatorData data type) := by
  unfold parseIndicatorData sortedByTimestampDesc
  refine List.chain'_iff_pairwise.mpr ?_
  exact List.Pairwise.sublist (List.take_sublist _ _)
    (List.sorted_insertionSort (fun a b : IndicatorPoint => b.timestamp ≤ a.timestamp) _)

theorem parseIndicatorData_length (data : List (ℤ × (String → ℚ))) (type : String) :
    (parseIndicatorData data type).length ≤ 100 := by
  unfold parseIndicatorData
  exact List.length_take_le 100 _

theorem getFallbackIndicator_sortedAsc (symbol indicator : String) (rs : ℕ → IndRand)
    (now : ℤ) : sortedByTimestampAsc (getFallbackIndicator symbol indicator rs now) := by
  unfold getFallbackIndicator sortedByTimestampAsc
  split
  · rw [List.chain'_map]
    refine (List.chain'_range_succ _ 50).mpr ?_
    intro m hm
    simp only
    omega
  · split
    · rw [List.chain'_map]
      refine (List.chain'_range_succ _ 50).mpr ?_
      intro m hm
      simp only
      omega
    · exact List.chain'_nil

theorem getFallbackIndicator_length (symbol indicator : String) (rs : ℕ → IndRand)
    (now : ℤ) : (getFallbackIndicator symbol indicator rs now).length ≤ 100 := by
  unfold getFallbackIndicator
  split
  · simp
  · split
    · simp
    · simp

theorem getAlphaVantageIndicator_some (key symbol indicator : String)
    (resp : Option (List (ℤ × (String → ℚ)))) (rs : ℕ → IndRand) (now : ℤ)
    (d : List IndicatorPoint)
    (h : (getAlphaVantageIndicator key symbol indicator resp rs now).1 = some d) :
    d.length ≤ 100
    ∧ (key ≠ "demo" → sortedByTimestampDesc d)
    ∧ (key = "demo" → sortedByTimestampAsc d) := by
  unfold getAlphaVantageIndicator at h
  by_cases hk : key = "demo"
  · rw [if_pos hk] at h
    simp only [Option.some.injEq] at h
    subst h
    exact ⟨getFallbackIndicator_length symbol indicator rs now,
      fun hne => absurd hk hne,
      fun _ => getFallbackIndicator_sortedAsc symbol indicator rs now⟩
  · rw [if_neg hk] at h
    rcases hfm : functionMap indicator with _ | func
    · rw [hfm] at h
      simp at h
    · rw [hfm] at h
      rcases resp with _ | series
      · simp at h
      · simp only at h
        have parseCase : ∀ t : String, parseIndicatorData series t = d →
            d.length ≤ 100
            ∧ (key ≠ "demo" → sortedByTimestampDesc d)
            ∧ (key = "demo" → sortedByTimestampAsc d) := by
          intro t ht
          subst ht
          exact ⟨parseIndicatorData_length series t,
            fun _ => parseIndicatorData_sortedDesc series t,
            fun hd => absurd hd hk⟩
        by_cases h1 : indicator = "RSI"
        · rw [if_pos h1] at h
          simp only [Option.some.injEq] at h
          exact parseCase _ h
        · rw [if_neg h1] at h
          by_cases h2 : indicator = "MACD"
          · rw [if_pos h2] at h
            simp only [Option.some.injEq] at h
            exact parseCase _ h
          · rw [if_neg h2] at h
            by_cases h3 : indicator = "SMA" ∨ indicator = "EMA"
            · rw [if_pos h3] at h
              simp only [Option.some.injEq] at h
              exact parseCase _ h
            · rw [if_neg h3] at h
              simp at h

theorem mem_upsert (p : String × List IndicatorPoint)
    (acc : List (String × List IndicatorPoint)) (k : String)
    (v : List IndicatorPoint) (h : p ∈ upsert acc k v) : p ∈ acc ∨ p = (k, v) := by
  induction acc with
  | nil =>
      simp only [upsert, List.mem_singleton] at h
      exact Or.inr h
  | cons hd tl ih =>
      rcases hd with ⟨k0, v0⟩
      simp only [upsert] at h
      by_cases hk : k0 = k
      · rw [if_pos hk] at h
        rcases List.mem_cons.mp h with h1 | h1
        · exact Or.inr h1
        · exact Or.inl (List.mem_cons_of_mem _ h1)
      · rw [if_neg hk] at h
        rcases List.mem_cons.mp h with h1 | h1
        · exact Or.inl (h1 ▸ List.mem_cons_self _ _)
        · rcases ih h1 with h2 | h2
          · exact Or.inl (List.mem_cons_of_mem _ h2)
          · exact Or.inr h2

theorem mem_collectIndicators (key symbol : String)
    (resp : String → Option (List (ℤ × (String → ℚ)))) (rsFor : String → ℕ → IndRand)
    (now : ℤ) (inds : List String) (acc : List (String × List IndicatorPoint))
    (p : String × List IndicatorPoint)
    (hp : p ∈ collectIndicators key symbol resp rsFor now inds acc) :
    p ∈ acc
    ∨ ∃ ind d, (getAlphaVantageIndicator key symbol ind (resp ind) (rsFor ind) now).1
        = some d ∧ p = (ind, d) := by
  induction inds generalizing acc with
  | nil => exact Or.inl hp
  | cons ind rest ih =>
      unfold collectIndicators at hp
      rcases hres : (getAlphaVantageIndicator key symbol ind (resp ind) (rsFor ind)
          now).1 with _ | d
      · rw [hres] at hp
        exact ih _ hp
      · rw [hres] at hp
        rcases ih _ hp with h1 | h1
        · rcases mem_upsert _ _ _ _ h1 with h2 | h2
          · exact Or.inl h2
          · exact Or.inr ⟨ind, d, hres, h2⟩
        · exact Or.inr h1

/-- Concrete indicator environment in demo mode. -/
def iEnvDemo : IndEnv :=
  { alphaVantageKey := "demo", resp := fun _ => none
    rsFor := fun _ _ => ⟨0, 0, 0⟩, now := 0 }

/-- C3 counterexample: in demo mode the per-indicator result array of
`getTechnicalIndicators` for RSI is the fallback series, which is built oldest
first and is NOT sorted descending by timestamp. -/
theorem indicator_ordering_and_cap_cex :
    ((getTechnicalIndicators [] "AAPL" ["RSI"] iEnvDemo).results.lookup "RSI").isSome
      = true
    ∧ ¬ sortedByTimestampDesc
        (((getTechnicalIndicators [] "AAPL" ["RSI"] iEnvDemo).results.lookup
          "RSI").getD []) :=
  ⟨by decide, by decide⟩

/-- C3 (amended): every per-indicator result array of `getTechnicalIndicators` on
a cache miss has at most 100 entries; arrays obtained from the real-provider path
are sorted descending by timestamp, but arrays from the demo-mode fallback are
sorted ascending by timestamp (51 daily points for RSI and MACD, empty
otherwise). -/
theorem indicator_ordering_and_cap (cache : Cache (List (String × List IndicatorPoint)))
    (symbol : String) (indicators : List String) (env : IndEnv)
    (hmiss : isCacheValid cache env.now
      ("indicators_" ++ symbol ++ "_" ++ String.intercalate "_" indicators) 300000
        = false) :
    ∀ p ∈ (getTechnicalIndicators cache symbol indicators env).results,
      p.2.length ≤ 100
      ∧ (env.alphaVantageKey ≠ "demo" → sortedByTimestampDesc p.2)
      ∧ (env.alphaVantageKey = "demo" → sortedByTimestampAsc p.2) := by
  intro p hp
  rw [ind_miss cache symbol indicators env hmiss] at hp
  simp only at hp
  rcases mem_collectIndicators _ _ _ _ _ _ _ _ hp with h1 | ⟨ind, d, hres, rfl⟩
  · simp at h1
  · exact getAlphaVantageIndicator_some _ _ _ _ _ _ _ hres

/-- The RSI entry the demo environment produces. -/
def pRSI : String × List IndicatorPoint :=
  ("RSI", getFallbackIndicator "AAPL" "RSI" (iEnvDemo.rsFor "RSI") iEnvDemo.now)

/-- Witness for C3's amended theorem at the concrete demo environment. -/
theorem indicator_ordering_and_cap_witness :
    (isCacheValid ([] : Cache (List (String × List IndicatorPoint))) iEnvDemo.now
        ("indicators_" ++ "AAPL" ++ "_" ++ String.intercalate "_" ["RSI"]) 300000
          = false)
    ∧ pRSI ∈ (getTechnicalIndicators [] "AAPL" ["RSI"] iEnvDemo).results
    ∧ pRSI.2.length ≤ 100
    ∧ sortedByTimestampAsc pRSI.2 := by
  have hmem : pRSI ∈ (getTechnicalIndicators [] "AAPL" ["RSI"] iEnvDemo).results :=
    List.mem_cons_self _ _
  have h := indicator_ordering_and_cap [] "AAPL" ["RSI"] iEnvDemo (by decide) pRSI hmem
  exact ⟨by decide, hmem, h.1, h.2.2 rfl⟩

/-- C7 counterexample: `Math.random()` can return 0, a valid draw, and then the
synthetic quote's delta is exactly `-5`, which lies outside the open interval
`(-5, 5)` the claim states. -/
theorem fallback_shapes_cex :
    QuoteRand.valid ⟨0, 0, 0, 0, 0⟩
    ∧ (getFallbackQuote "AAPL" ⟨0, 0, 0, 0, 0⟩ 0).change = -5
    ∧ ¬(-5 < (getFallbackQuote "AAPL" ⟨0, 0, 0, 0, 0⟩ 0).change
        ∧ (getFallbackQuote "AAPL" ⟨0, 0, 0, 0, 0⟩ 0).change < 5) := by
  refine ⟨⟨⟨by norm_num, by norm_num⟩, ⟨by norm_num, by norm_num⟩, ⟨by norm_num, by norm_num⟩,
    ⟨by norm_num, by norm_num⟩, ⟨by norm_num, by norm_num⟩⟩, ?_, ?_⟩
  · simp only [getFallbackQuote]
    norm_num
  · simp only [getFallbackQuote]
    norm_num

/-- C7 (amended): the synthetic fallback data has the documented shape, except
that the quote's random delta ranges over the half-open interval `[-5, 5)` (the
draw 0 yields exactly `-5`) rather than the open interval `(-5, 5)`: a synthetic
quote has `price = basePrice + delta`, `change = delta ∈ [-5, 5)`,
`changePercent = change / basePrice * 100` and an integer volume in
`[0, 10000000)`; a synthetic historical series has exactly 101 points at 5-minute
spacing ending at now, each close within ±10 of the synthetic base quote price;
a synthetic RSI indicator series has exactly 51 daily points with values in
`[30, 70]`. -/
theorem fallback_shapes (symbol : String) (rnd qr : QuoteRand)
    (prs : ℕ → PointRand) (irs : ℕ → IndRand) (now : ℤ)
    (hrnd : rnd.valid) (hprs : ∀ i, (prs i).valid) (hirs : ∀ i, (irs i).valid) :
    ((getFallbackQuote symbol rnd now).price
        = baseValues symbol + (getFallbackQuote symbol rnd now).change
      ∧ -5 ≤ (getFallbackQuote symbol rnd now).change
      ∧ (getFallbackQuote symbol rnd now).change < 5
      ∧ (getFallbackQuote symbol rnd now).changePercent
          = (getFallbackQuote symbol rnd now).change / baseValues symbol * 100
      ∧ ∃ v : ℤ, (getFallbackQuote symbol rnd now).volume = some (v : ℚ)
          ∧ 0 ≤ v ∧ v < 10000000)
    ∧ ((getFallbackHistoricalData symbol qr prs now).length = 101
      ∧ (getFallbackHistoricalData symbol qr prs now).Chain'
          (fun a b => b.timestamp = a.timestamp + 5 * 60 * 1000)
      ∧ ((getFallbackHistoricalData symbol qr prs now)[100]?).map
          (fun p => p.timestamp) = some now
      ∧ ∀ p ∈ getFallbackHistoricalData symbol qr prs now,
          |p.close - (getFallbackQuote symbol qr now).price| ≤ 10)
    ∧ ((getFallbackIndicator symbol "RSI" irs now).length = 51
      ∧ (getFallbackIndicator symbol "RSI" irs now).Chain'
          (fun a b => b.timestamp = a.timestamp + 24 * 60 * 60 * 1000)
      ∧ ∀ p ∈ getFallbackIndicator symbol "RSI" irs now,
          ∃ v, p.value = some v ∧ 30 ≤ v ∧ v ≤ 70) := by
  obtain ⟨⟨h00, h01⟩, ⟨h10, h11⟩, -, -, -⟩ := hrnd
  refine ⟨⟨?_, ?_, ?_, ?_, ?_⟩, ⟨?_, ?_, ?_, ?_⟩, ⟨?_, ?_, ?_⟩⟩
  · simp only [getFallbackQuote]
  · simp only [getFallbackQuote]
    linarith
  · simp only [getFallbackQuote]
    linarith
  · simp only [getFallbackQuote]
  · refine ⟨⌊rnd.r1 * 10000000⌋, rfl, ?_, ?_⟩
    · exact Int.le_floor.mpr (by push_cast; positivity)
    · refine Int.floor_lt.mpr ?_
      push_cast
      linarith
  · simp [getFallbackHistoricalData]
  · simp only [getFallbackHistoricalData]
    rw [List.chain'_map]
    refine (List.chain'_range_succ _ 100).mpr ?_
    intro m hm
    simp only [fallbackHistoricalPoint]
    omega
  · simp only [getFallbackHistoricalData, List.getElem?_map, List.getElem?_range,
      fallbackHistoricalPoint]
    norm_num
  · intro p hp
    simp only [getFallbackHistoricalData] at hp
    rcases List.mem_map.mp hp with ⟨j, hj, rfl⟩
    obtain ⟨⟨hp0, hp1⟩, -, -, -, -⟩ := hprs (100 - j)
    simp only [fallbackHistoricalPoint]
    rw [abs_le]
    constructor
    · linarith
    · linarith
  · unfold getFallbackIndicator
    rw [if_pos rfl]
    simp
  · unfold getFallbackIndicator
    rw [if_pos rfl]
    rw [List.chain'_map]
    refine (List.chain'_range_succ _ 50).mpr ?_
    intro m hm
    simp only
    omega
  · intro p hp
    unfold getFallbackIndicator at hp
    rw [if_pos rfl] at hp
    rcases List.mem_map.mp hp with ⟨j, hj, rfl⟩
    obtain ⟨⟨hi0, hi1⟩, -, -⟩ := hirs (50 - j)
    refine ⟨30 + (irs (50 - j)).a * 40, rfl, ?_, ?_⟩
    · linarith
    · linarith

/-- Witness for C7's amended theorem at the all-zero random draws. -/
theorem fallback_shapes_witness :
    (QuoteRand.valid ⟨0, 0, 0, 0, 0⟩
      ∧ (∀ i : ℕ, (⟨0, 0, 0, 0, 0⟩ : PointRand).valid)
      ∧ (∀ i : ℕ, (⟨0, 0, 0⟩ : IndRand).valid))
    ∧ ((getFallbackQuote "AAPL" ⟨0, 0, 0, 0, 0⟩ 0).price
        = baseValues "AAPL" + (getFallbackQuote "AAPL" ⟨0, 0, 0, 0, 0⟩ 0).change
      ∧ -5 ≤ (getFallbackQuote "AAPL" ⟨0, 0, 0, 0, 0⟩ 0).change
      ∧ (getFallbackQuote "AAPL" ⟨0, 0, 0, 0, 0⟩ 0).change < 5)
    ∧ (getFallbackHistoricalData "AAPL" ⟨0, 0, 0, 0, 0⟩ (fun _ => ⟨0, 0, 0, 0, 0⟩)
        0).length = 101
    ∧ (getFallbackIndicator "AAPL" "RSI" (fun _ => ⟨0, 0, 0⟩) 0).length = 51 := by
  have hv : QuoteRand.valid ⟨0, 0, 0, 0, 0⟩ :=
    ⟨⟨by norm_num, by norm_num⟩, ⟨by norm_num, by norm_num⟩, ⟨by norm_num, by norm_num⟩,
      ⟨by norm_num, by norm_num⟩, ⟨by norm_num, by norm_num⟩⟩
  have hp : ∀ i : ℕ, (⟨0, 0, 0, 0, 0⟩ : PointRand).valid := fun _ =>
    ⟨⟨by norm_num, by norm_num⟩, ⟨by norm_num, by norm_num⟩, ⟨by norm_num, by norm_num⟩,
      ⟨by norm_num, by norm_num⟩, ⟨by norm_num, by norm_num⟩⟩
  have hi : ∀ i : ℕ, (⟨0, 0, 0⟩ : IndRand).valid := fun _ =>
    ⟨⟨by norm_num, by norm_num⟩, ⟨by norm_num, by norm_num⟩, ⟨by norm_num, by norm_num⟩⟩
  have h := fallback_shapes "AAPL" ⟨0, 0, 0, 0, 0⟩ ⟨0, 0, 0, 0, 0⟩
    (fun _ => ⟨0, 0, 0, 0, 0⟩) (fun _ => ⟨0, 0, 0⟩) 0 hv hp hi
  exact ⟨⟨hv, hp, hi⟩, ⟨h.1.1, h.1.2.1, h.1.2.2.1⟩, h.2.1.1, h.2.2.1⟩

end LiveTrader
